/-
Verification of the crn-meta-validate metadata QC engine.

This file gives a shallow embedding, in Lean 4, of the core pure logic of
the repository:

* utils/find_missing_values.py : missing-value mask and null-like
  normalization (NULL_SENTINEL, compute_missing_mask,
  normalize_null_like_series);
* utils/cde.py : schema loading (load_cde_data, get_cde_filename) and
  applicability parsing/filtering (parse_json_list_cell, _axis_allows);
* utils/validate.py : per-datatype cell validity, the error/warning
  counters of validate_table, and ReportCollector.get_log;
* utils/delimiter_handler.py : decode_bytes_with_fallbacks,
  detect_delimiter and get_row_count;
* app.py : apply_fill_choice and the errors-gate on the sanitized
  download.

Cells of a pandas string-dtype column are modelled as `Option String`
(`none` is a true pandas NA).  Calls into foreign libraries (pandas
parsing, `ast.literal_eval`, `json.loads`, `re.fullmatch`, codecs other
than latin-1) are modelled as explicit function parameters, so theorems
about the surrounding control flow hold for every behaviour of those
libraries.
-/
import Mathlib

namespace CrnMetaValidate

/-! ### Python string helpers

`pyIsSpace` models the characters matched by the regex class \s (ASCII
part) used via str.fullmatch(r"\s*") and str.strip() in the source. -/

def pyIsSpace (c : Char) : Bool :=
  c = ' ' || c = '\t' || c = '\n' || c = '\r' || c = '\x0b' || c = '\x0c'

/-- A string is blank iff it is empty or all-whitespace: this is the
str.fullmatch(r"\s*") test of utils/find_missing_values.py. -/
def isBlankStr (s : String) : Bool :=
  s.toList.all pyIsSpace

/-- Python str.strip(): drop leading and trailing whitespace. -/
def pyStrip (s : String) : String :=
  String.mk (((s.toList.dropWhile pyIsSpace).reverse.dropWhile pyIsSpace).reverse)

/-- Python str.lower() on the ASCII strings the app deals with. -/
def pyLower (s : String) : String :=
  String.mk (s.toList.map Char.toLower)

/-- Python str.startswith. -/
def pyStartsWith (s t : String) : Bool :=
  t.toList.isPrefixOf s.toList

/-- Python str.endswith. -/
def pyEndsWith (s t : String) : Bool :=
  t.toList.reverse.isPrefixOf s.toList.reverse

/-- Python s[n:]. -/
def pyDrop (s : String) (n : Nat) : String :=
  String.mk (s.toList.drop n)

/-- Python s[:-n] (for n ≤ len). -/
def pyDropRight (s : String) (n : Nat) : String :=
  String.mk ((s.toList.reverse.drop n).reverse)

/-! ### utils/find_missing_values.py -/

/-- Canonical sentinel used in sanitized CSVs for null-like entries
(`NULL_SENTINEL = "NA"`). -/
def NULL_SENTINEL : String := "NA"

/-- The _NULL_LIKE_STRINGS set: textual representations normalized to
the sentinel when cleaning. -/
def NULL_LIKE_STRINGS : List String :=
  ["none", "None", "nan", "NaN", "NAN", "N/A", "n/a"]

/-- One cell of compute_missing_mask: missing iff a true pandas NA or a
blank / whitespace-only string. -/
def compute_missing_mask_cell (c : Option String) : Bool :=
  match c with
  | none => true
  | some s => isBlankStr s

/-- The compute_missing_mask function over a whole column. -/
def compute_missing_mask (column : List (Option String)) : List Bool :=
  column.map compute_missing_mask_cell

/-- One cell of normalize_null_like_series: blanks and true NAs become
the sentinel (mask + fillna), then the configured null-like tokens are
replaced by the sentinel. -/
def normalize_null_like_cell (sentinel : String) (c : Option String) : String :=
  let s1 := match c with
    | none => sentinel
    | some s => if isBlankStr s then sentinel else s
  if s1 ∈ NULL_LIKE_STRINGS then sentinel else s1

/-- The normalize_null_like_series function: normalize empty and textual
null-like values in a column to a single sentinel string. -/
def normalize_null_like_series (sentinel : String) (column : List (Option String)) :
    List String :=
  column.map (normalize_null_like_cell sentinel)

/-! ### utils/cde.py : schema loading (claim C1)

`get_cde_filename` maps a supported version string to the local cache
filename; `load_cde_data` reads the CDE from either the local file or the
remote Google sheet, depending on the `local` flag.  A failed read calls
st.error/st.stop, modelled as `Except.error ()`; the outcome of the two
possible pandas reads is passed in as `localData` / `remoteData`
(`none` = the read raised). -/

def get_cde_filename (cde_version : String) : Except Unit String :=
  if cde_version ∈ ["v1", "v2", "v2.1", "v3.0", "v3.0-beta", "v3.1", "v3.2",
      "v3.3", "v3.3-beta", "v3.4", "v4.0", "v4.0-beta", "v4.1"] then
    Except.ok ("ASAP_CDE_" ++ cde_version)
  else if cde_version ∈ ["v3", "v3.0.0"] then
    Except.ok "ASAP_CDE_v3.0"
  else if cde_version ∈ ["v3.2-beta"] then
    Except.ok "ASAP_CDE_v3.2"
  else
    Except.error ()

def load_cde_data {α : Type} (localFlag : Bool)
    (localData : Option α) (remoteData : Option α) : Except Unit α :=
  if localFlag then
    match localData with
    | some df => Except.ok df
    | none => Except.error ()
  else
    match remoteData with
    | some df => Except.ok df
    | none => Except.error ()

/-! ### utils/cde.py : applicability parsing and filtering (claim C3)

`json.loads` is modelled by a caller-supplied `jsonLoads` function:
`none` models a raised exception, `JsonOutcome.jlist items` a parsed JSON
list whose elements have already been rendered with str(), and
`JsonOutcome.jscalar s` any other parsed value rendered with str(). -/

inductive JsonOutcome where
  | jlist (items : List String)
  | jscalar (s : String)

def parse_json_list_cell (jsonLoads : String → Option JsonOutcome)
    (cellValue : Option String) : List String :=
  match cellValue with
  | none => []
  | some raw =>
    let normalized := pyStrip raw
    if normalized = "" then []
    else if pyLower normalized = "nan" ∨ pyLower normalized = "none" then []
    else if pyStartsWith normalized "[" then
      match jsonLoads normalized with
      | none => [normalized]
      | some (JsonOutcome.jlist items) => items.filter (fun it => pyStrip it ≠ "")
      | some (JsonOutcome.jscalar s) => [s]
    else [normalized]

/-- The _axis_allows helper of filter_cde_rules_for_selection: an axis
allows a row iff no value is selected, the selection is blank, the
parsed applicability list is empty, or the selection is a member of it. -/
def axis_allows (jsonLoads : String → Option JsonOutcome)
    (cellValue : Option String) (selectedValue : Option String) : Bool :=
  match selectedValue with
  | none => true
  | some sv =>
    if pyStrip sv = "" then true
    else
      let allowedValues := parse_json_list_cell jsonLoads cellValue
      if allowedValues.length = 0 then true
      else decide (sv ∈ allowedValues)

/-! ### utils/validate.py : per-datatype cell validity (claims C2, C4)

pandas.to_numeric is modelled by a caller-supplied
`toNum : String → Option Rat` (`none` = coerced to NaN); a compiled
pattern for re.fullmatch is modelled by `Option (String → Bool)`
(`none` = the pattern itself raises re.error, in which case the source
treats every entry as invalid). -/

def integerValid (fillnullValues : List String) (toNum : String → Option Rat)
    (cell : String) : Bool :=
  if cell ∈ fillnullValues ∨ cell = NULL_SENTINEL then true
  else
    match toNum cell with
    | some q => q.den == 1
    | none => false

def floatValid (fillnullValues : List String) (toNum : String → Option Rat)
    (cell : String) : Bool :=
  if cell ∈ fillnullValues ∨ cell = NULL_SENTINEL then true
  else (toNum cell).isSome

def enumValid (validValues fillnullValues : List String) (cell : String) : Bool :=
  decide (cell ∈ validValues ++ fillnullValues)

def regexValid (fillnullValues : List String) (matcher : Option (String → Bool))
    (cell : String) : Bool :=
  if cell ∈ fillnullValues then true
  else if cell = NULL_SENTINEL then decide (cell ∈ fillnullValues)
  else
    match matcher with
    | some f => f cell
    | none => false

/-! ### utils/validate.py : validate_table error/warning counting (claim C4) -/

/-- One CDE row for a field, with the raw Validation / FillNull strings. -/
structure FieldRule where
  field : String
  required : String
  datatype : String
  validation : String
  fillnull : String

/-- Foreign library behaviour threaded through validate_table:
`litParse` models parse_literal_list (ast.literal_eval based), `toNum`
models pandas.to_numeric on one cell, `matcherOf` models compiling the
regex pattern for re.fullmatch. -/
structure PyEnv where
  litParse : String → List String
  toNum : String → Option Rat
  matcherOf : String → Option (String → Bool)

/-- Per-cell validity dispatch of validate_table on the DataType string;
any unrecognized type (the String free-form branch) accepts everything. -/
def cellValid (env : PyEnv) (rule : FieldRule) (cell : String) : Bool :=
  if rule.datatype = "Integer" then
    integerValid (env.litParse rule.fillnull) env.toNum cell
  else if rule.datatype = "Float" then
    floatValid (env.litParse rule.fillnull) env.toNum cell
  else if rule.datatype = "Enum" then
    enumValid (env.litParse rule.validation) (env.litParse rule.fillnull) cell
  else if rule.datatype = "Regex" then
    regexValid (env.litParse rule.fillnull) (env.matcherOf (pyStrip rule.validation)) cell
  else true

/-- A present column has invalid values iff, after null-like
normalization, some cell fails cellValid (the source appends the field to
invalid_required/invalid_optional iff the distinct invalid values are
nonempty, which is the same condition). -/
def columnHasInvalid (env : PyEnv) (rule : FieldRule)
    (cells : List (Option String)) : Bool :=
  (normalize_null_like_series NULL_SENTINEL cells).any
    (fun c => !(cellValid env rule c))

/-- The four lists accumulated by the loop of validate_table:
missing required, missing optional, invalid required, invalid optional
(fields are collected in reverse order, which leaves the lengths — all
the counters use — unchanged).  A table maps a column name to its cells,
`none` meaning the column is absent. -/
def validate_table_lists (env : PyEnv)
    (table : String → Option (List (Option String))) :
    List FieldRule → List String × List String × List String × List String
  | [] => ([], [], [], [])
  | r :: rs =>
    let rest := validate_table_lists env table rs
    let isReq := r.required = "Required"
    match table r.field with
    | none =>
      if isReq then (r.field :: rest.1, rest.2.1, rest.2.2.1, rest.2.2.2)
      else (rest.1, r.field :: rest.2.1, rest.2.2.1, rest.2.2.2)
    | some cells =>
      if columnHasInvalid env r cells then
        if isReq then (rest.1, rest.2.1, r.field :: rest.2.2.1, rest.2.2.2)
        else (rest.1, rest.2.1, rest.2.2.1, r.field :: rest.2.2.2)
      else rest

/-- errors_counter and warnings_counter of validate_table: one error per
missing required column plus len(invalid_required); one warning per
missing optional column plus len(invalid_optional). -/
def validate_table_counts (env : PyEnv)
    (table : String → Option (List (Option String)))
    (rules : List FieldRule) : Nat × Nat :=
  let lists := validate_table_lists env table rules
  (lists.1.length + lists.2.2.1.length, lists.2.1.length + lists.2.2.2.length)

/-- app.py main: the sanitized *.cde_compared.csv download button is
rendered enabled iff errors_counter == 0. -/
def sanitized_download_enabled (errorsCounter : Nat) : Bool :=
  errorsCounter == 0

/-! ### app.py : apply_fill_choice (claim C5)

`ast.literal_eval` on the FillNull text (including the except-branch that
yields the raw text as a singleton) is modelled by the caller-supplied
`parseFillNull`. -/

/-- series.mask(mask, value): replace exactly the missing-mask-flagged
cells by the value. -/
def mask_fill (series : List (Option String)) (v : String) : List (Option String) :=
  series.map (fun c => if compute_missing_mask_cell c then some v else c)

/-- The fill_value resolution of apply_fill_choice once the explicit
override has been ruled out: a falsy (empty/absent) choice resolves to
nothing; a choice of the exact form Fill out with "X" resolves to X;
otherwise the safety net resolves a choice equal to one of the parsed
FillNull values to itself. -/
def resolve_fill_value (parseFillNull : String → List String)
    (userChoice : Option String) (fillnullText : String) : Option String :=
  match userChoice with
  | none => none
  | some uc =>
    if uc = "" then none
    else if pyStartsWith uc "Fill out with \"" && pyEndsWith uc "\"" then
      some (pyDropRight (pyDrop uc 15) 1)
    else
      let fillnullValues := if fillnullText ≠ "" then parseFillNull fillnullText else []
      if uc ∈ fillnullValues then some uc else none

def apply_fill_after_override (parseFillNull : String → List String)
    (series : List (Option String)) (userChoice : Option String)
    (fillnullText : String) : List (Option String) :=
  match resolve_fill_value parseFillNull userChoice fillnullText with
  | some v => mask_fill series v
  | none => series

/-- apply_fill_choice from app.py: a non-blank explicit override wins;
otherwise the resolved fill value is applied to the masked cells;
otherwise the series is returned unchanged. -/
def apply_fill_choice (parseFillNull : String → List String)
    (series : List (Option String)) (userChoice : Option String)
    (fillNullRaw : String) (overrideValue : Option String) :
    List (Option String) :=
  match overrideValue with
  | some ov =>
    if pyStrip ov ≠ "" then mask_fill series ov
    else apply_fill_after_override parseFillNull series userChoice (pyStrip fillNullRaw)
  | none => apply_fill_after_override parseFillNull series userChoice (pyStrip fillNullRaw)

/-! ### utils/validate.py : ReportCollector (claim C9)

An entry is a (tag, message) pair; the divider entry stores no message
(Python None).  get_log renders markdown and error entries verbatim plus
newline, header/subheader entries with a # / ## lead-in, dividers as a
fixed 60-dash line, and silently skips every other tag (success,
warning). -/

def report_entry_text (e : String × Option String) : String :=
  if e.1 = "markdown" then e.2.getD "None" ++ "\n"
  else if e.1 = "error" then e.2.getD "None" ++ "\n"
  else if e.1 = "header" then "# " ++ e.2.getD "None" ++ "\n"
  else if e.1 = "subheader" then "## " ++ e.2.getD "None" ++ "\n"
  else if e.1 = "divider" then String.mk (List.replicate 60 '-') ++ "\n"
  else ""

/-- ReportCollector.get_log: concatenation of the rendered entries, in
order. -/
def report_get_log (entries : List (String × Option String)) : String :=
  entries.foldr (fun e acc => report_entry_text e ++ acc) ""

def add_markdown (entries : List (String × Option String)) (msg : String) :
    List (String × Option String) :=
  entries ++ [("markdown", some msg)]

def add_success (entries : List (String × Option String)) (msg : String) :
    List (String × Option String) :=
  entries ++ [("success", some msg)]

def add_warning (entries : List (String × Option String)) (msg : String) :
    List (String × Option String) :=
  entries ++ [("warning", some msg)]

def add_divider (entries : List (String × Option String)) :
    List (String × Option String) :=
  entries ++ [("divider", none)]

/-! ### utils/delimiter_handler.py : decode_bytes_with_fallbacks (claim C10)

Bytes are lists of naturals below 256.  The utf-8-sig, utf-8 and cp1252
codecs are caller-supplied partial decoders; latin-1 is total: it maps
every byte b to the character U+00b. -/

def latin1_decode (bs : List Nat) : Option String :=
  some (String.mk (bs.map (fun b => Char.ofNat b)))

/-- DEFAULT_ENCODINGS_TO_TRY, in source order, latin-1 last. -/
def default_encodings_to_try (utf8sig utf8 cp1252 : List Nat → Option String) :
    List (String × (List Nat → Option String)) :=
  [("utf-8-sig", utf8sig), ("utf-8", utf8), ("cp1252", cp1252),
   ("latin-1", latin1_decode)]

/-- The candidate loop of decode_bytes_with_fallbacks: first decoder that
does not raise wins, together with its encoding name. -/
def first_successful_decode :
    List (String × (List Nat → Option String)) → List Nat →
    Option (String × String)
  | [], _ => none
  | (name, dec) :: rest, bs =>
    match dec bs with
    | some txt => some (txt, name)
    | none => first_successful_decode rest bs

/-- decode_bytes_with_fallbacks: returns (text, encoding, errors-mode);
the loop reports "strict", the final forced utf-8 branch (modelled by
`forcedUtf8Ignore`, which cannot raise) reports "ignore". -/
def decode_bytes_with_fallbacks (utf8sig utf8 cp1252 : List Nat → Option String)
    (forcedUtf8Ignore : List Nat → String) (bs : List Nat) :
    String × String × String :=
  match first_successful_decode (default_encodings_to_try utf8sig utf8 cp1252) bs with
  | some (txt, name) => (txt, name, "strict")
  | none => (forcedUtf8Ignore bs, "utf-8", "ignore")

/-! ### utils/delimiter_handler.py : detect_delimiter (claim C6)

The decoded file is taken after splitlines as a list of lines.  Scores
are exact rationals (Python uses floats, but every quantity here — a
median of naturals, a fraction of naturals, and their combination — is
exactly representable). -/

def SUPPORTED_DELIMITERS : List Char := [',', ';', '\t', '|']

def LINES_TO_EVALUATE : Nat := 50

/-- line.count(delim) for a single-character delimiter. -/
def countChar (s : String) (c : Char) : Nat :=
  s.toList.count c

/-- Insertion into a sorted list, for statistics.median. -/
def insertSorted (x : Nat) : List Nat → List Nat
  | [] => [x]
  | y :: ys => if x ≤ y then x :: y :: ys else y :: insertSorted x ys

def sortNat (l : List Nat) : List Nat :=
  l.foldr insertSorted []

/-- statistics.median on a list of naturals: middle element of the sorted
list, or the mean of the two middle elements for even length (0 on the
empty list, which the source never reaches). -/
def pyMedian (l : List Nat) : Rat :=
  let s := sortNat l
  let n := s.length
  if n = 0 then 0
  else if n % 2 = 1 then ((s.getD (n / 2) 0 : Nat) : Rat)
  else (((s.getD (n / 2 - 1) 0 : Nat) : Rat) + ((s.getD (n / 2) 0 : Nat) : Rat)) / 2

/-- The per-candidate score of detect_delimiter: −1 disqualifications for
a delimiter absent from the header, an empty sample, a non-positive
median count, or a one-column header; otherwise
consistency·100 + median. -/
def scoreDelim (headerLine : String) (candidateLines : List String)
    (delim : Char) : Rat :=
  if countChar headerLine delim = 0 then -1
  else
    let counts := candidateLines.map (fun l => countChar l delim)
    if counts = [] then -1
    else
      let medianCount := pyMedian counts
      if medianCount ≤ 0 then -1
      else
        let matched := (counts.filter (fun k => ((k : Rat) = medianCount : Bool))).length
        let consistency : Rat := (matched : Rat) / (counts.length : Rat)
        let estCols := countChar headerLine delim + 1
        if estCols ≤ 1 then -1
        else consistency * 100 + medianCount

/-- Python max over the score dict: first key attaining the maximum, in
insertion (candidate) order. -/
def pickBest : List (Char × Rat) → Char × Rat
  | [] => (',', -1)
  | x :: xs => xs.foldl (fun acc y => if y.2 > acc.2 then y else acc) x

/-- detect_delimiter (scoring part; the pandas preview does not influence
the returned delimiter or confidence): keep the non-empty lines, sample
the first max 2 (min len numLines) of them, score every supported
candidate, and return the best, or comma with confidence 0 when nothing
qualifies (or the file has no non-empty line). -/
def detect_delimiter (lines : List String) (numLines : Nat) : Char × Rat :=
  let neLines := lines.filter (fun l => !(isBlankStr l))
  match neLines with
  | [] => (',', 0)
  | headerLine :: _ =>
    let candidateLines := neLines.take (max 2 (min neLines.length numLines))
    let scored := SUPPORTED_DELIMITERS.map
      (fun d => (d, scoreDelim headerLine candidateLines d))
    let best := pickBest scored
    if best.2 < 0 then (',', 0)
    else (best.1, min 100 (max 0 best.2))

/-! ### utils/delimiter_handler.py : get_row_count (claim C7)

The two pandas parses (strict, then tolerant with on_bad_lines="skip")
are modelled as caller-supplied outcomes: `none` = the parse raised,
`some n` = a dataframe with n data rows.  An empty byte content decodes
to no lines, so the leading `if not file_content: return 0` is subsumed
by the non-empty-line count check. -/

def get_row_count (lines : List String)
    (strictParse tolerantParse : Option Nat) : Int :=
  let neLines := lines.filter (fun l => !(isBlankStr l))
  if neLines.length ≤ 1 then 0
  else
    match strictParse with
    | some n => (max 0 (n : Int))
    | none =>
      match tolerantParse with
      | some n => (max 0 (n : Int))
      | none => -1

/-! ### Theorem for claim C8 -/

lemma normalize_cell_idem (c : Option String) :
    normalize_null_like_cell NULL_SENTINEL
      (some (normalize_null_like_cell NULL_SENTINEL c)) =
    normalize_null_like_cell NULL_SENTINEL c := by
  have hNAblank : isBlankStr NULL_SENTINEL = false := by decide
  have hNAtok : NULL_SENTINEL ∉ NULL_LIKE_STRINGS := by decide
  match c with
  | none =>
    simp [normalize_null_like_cell, hNAblank, hNAtok]
  | some s =>
    by_cases hb : isBlankStr s
    · simp [normalize_null_like_cell, hb, hNAblank, hNAtok]
    · by_cases ht : s ∈ NULL_LIKE_STRINGS
      · simp [normalize_null_like_cell, hb, ht, hNAblank, hNAtok]
      · simp [normalize_null_like_cell, hb, ht]

/-- C8: normalize_null_like with the default sentinel is idempotent: for
every column of string cells, applying it twice yields exactly the same
result as applying it once. -/
theorem normalize_null_like_idempotent (column : List (Option String)) :
    normalize_null_like_series NULL_SENTINEL
      ((normalize_null_like_series NULL_SENTINEL column).map some) =
    normalize_null_like_series NULL_SENTINEL column := by
  induction column with
  | nil => rfl
  | cons c cs ih =>
    simp only [normalize_null_like_series, List.map_cons] at ih ⊢
    rw [show (normalize_null_like_cell NULL_SENTINEL
      (some (normalize_null_like_cell NULL_SENTINEL c))) =
      normalize_null_like_cell NULL_SENTINEL c from normalize_cell_idem c]
    exact congrArg _ (by simpa [normalize_null_like_series] using ih)

/-! ### Theorem for claim C10 -/

/-- C10: for every bytes input (and any behaviour of the utf-8-sig,
utf-8 and cp1252 codecs), decode_bytes_with_fallbacks succeeds inside its
candidate-encoding loop — latin-1, the last candidate, decodes any byte
sequence — so the reported errors-mode is always "strict" and the final
forced-UTF-8-with-ignore branch is unreachable. -/
theorem decode_bytes_always_strict (d1 d2 d3 : List Nat → Option String)
    (d4 : List Nat → String) (bs : List Nat) :
    (decode_bytes_with_fallbacks d1 d2 d3 d4 bs).2.2 = "strict"
    ∧ first_successful_decode (default_encodings_to_try d1 d2 d3) bs ≠ none
    ∧ latin1_decode bs ≠ none := by
  have hl : latin1_decode bs = some (String.mk (bs.map (fun b => Char.ofNat b))) := rfl
  simp only [decode_bytes_with_fallbacks, default_encodings_to_try]
  cases h1 : d1 bs <;> cases h2 : d2 bs <;> cases h3 : d3 bs <;>
    simp [first_successful_decode, h1, h2, h3, hl]

/-! ### Theorems for claim C1 -/

/-- C1 counterexample: with the remote source selected (local=False), a
failing remote read stops the run fatally even though the local cached
copy is readable — load_cde_data never falls back to the other source, so
the run does not stop "only when the schema is unreachable from both
sources". -/
theorem load_cde_data_no_fallback_counterexample :
    load_cde_data (α := Nat) false (some 7) none = Except.error ()
    ∧ load_cde_data (α := Nat) false (some 7) none ≠ Except.ok 7 := by
  constructor
  · rfl
  · simp [load_cde_data]

/-- C1 (amended): load_cde_data reads from exactly one source selected by
the local flag — the local cached copy named by get_cde_filename's
version→filename convention when local=True, the remote sheet otherwise —
and the run stops fatally exactly when that single chosen source fails;
there is no fallback between sources. -/
theorem load_cde_data_single_source (α : Type) (localFlag : Bool)
    (localData remoteData : Option α) :
    (localFlag = true → ∀ d, localData = some d →
      load_cde_data localFlag localData remoteData = Except.ok d)
    ∧ (localFlag = true → localData = none →
      load_cde_data localFlag localData remoteData = Except.error ())
    ∧ (localFlag = false → ∀ d, remoteData = some d →
      load_cde_data localFlag localData remoteData = Except.ok d)
    ∧ (localFlag = false → remoteData = none →
      load_cde_data localFlag localData remoteData = Except.error ())
    ∧ get_cde_filename "v4.1" = Except.ok "ASAP_CDE_v4.1"
    ∧ get_cde_filename "v3" = Except.ok "ASAP_CDE_v3.0"
    ∧ get_cde_filename "v3.0.0" = Except.ok "ASAP_CDE_v3.0"
    ∧ get_cde_filename "v3.2-beta" = Except.ok "ASAP_CDE_v3.2"
    ∧ get_cde_filename "v9.9" = Except.error () := by
  refine ⟨?_, ?_, ?_, ?_, rfl, rfl, rfl, rfl, rfl⟩ <;>
    · intro hflag h
      first
      | (intro hsome; subst hflag; subst hsome; rfl)
      | (subst hflag; subst h; rfl)

theorem load_cde_data_single_source_witness :
    load_cde_data (α := Nat) true (some 3) none = Except.ok 3
    ∧ load_cde_data (α := Nat) false none (some 4) = Except.ok 4
    ∧ load_cde_data (α := Nat) true none (some 4) = Except.error ()
    ∧ load_cde_data (α := Nat) false (some 3) none = Except.error () :=
  ⟨(load_cde_data_single_source Nat true (some 3) none).1 rfl 3 rfl,
   (load_cde_data_single_source Nat false none (some 4)).2.2.1 rfl 4 rfl,
   (load_cde_data_single_source Nat true none (some 4)).2.1 rfl rfl,
   (load_cde_data_single_source Nat false (some 3) none).2.2.2.1 rfl rfl⟩

/-! ### Theorems for claim C9 -/

lemma report_get_log_append (l1 l2 : List (String × Option String)) :
    report_get_log (l1 ++ l2) = report_get_log l1 ++ report_get_log l2 := by
  induction l1 with
  | nil => simp [report_get_log]
  | cons e es ih =>
    simp only [List.cons_append, report_get_log, List.foldr_cons] at ih ⊢
    rw [ih, String.append_assoc]

/-- C9: exporting a Report to flat text renders only entries tagged
markdown, error, header (prefixed "# "), subheader (prefixed "## ") and
divider (a fixed 60-dash line); entries appended via add_success and
add_warning are stored in the entry list but contribute nothing to the
exported text. -/
theorem report_log_omits_success_and_warning
    (entries pre post : List (String × Option String)) (msg : String) :
    report_get_log (add_success entries msg) = report_get_log entries
    ∧ report_get_log (add_warning entries msg) = report_get_log entries
    ∧ add_success entries msg = entries ++ [("success", some msg)]
    ∧ add_warning entries msg = entries ++ [("warning", some msg)]
    ∧ report_get_log (pre ++ ("success", some msg) :: post) =
        report_get_log (pre ++ post)
    ∧ report_get_log (pre ++ ("warning", some msg) :: post) =
        report_get_log (pre ++ post)
    ∧ report_get_log (add_markdown entries msg) =
        report_get_log entries ++ (msg ++ "\n")
    ∧ report_get_log [("markdown", some msg)] = msg ++ "\n"
    ∧ report_get_log [("error", some msg)] = msg ++ "\n"
    ∧ report_get_log [("header", some msg)] = "# " ++ msg ++ "\n"
    ∧ report_get_log [("subheader", some msg)] = "## " ++ msg ++ "\n"
    ∧ report_get_log [("divider", none)] =
        String.mk (List.replicate 60 '-') ++ "\n" := by
  have hsingle : ∀ e : String × Option String,
      report_get_log [e] = report_entry_text e := by
    intro e; simp [report_get_log]
  refine ⟨?_, ?_, rfl, rfl, ?_, ?_, ?_, ?_, ?_, ?_, ?_, ?_⟩
  · rw [add_success, report_get_log_append, hsingle]
    simp [report_entry_text]
  · rw [add_warning, report_get_log_append, hsingle]
    simp [report_entry_text]
  · rw [show pre ++ ("success", some msg) :: post =
        (pre ++ [("success", some msg)]) ++ post by simp,
      report_get_log_append, report_get_log_append, report_get_log_append, hsingle]
    simp [report_entry_text]
  · rw [show pre ++ ("warning", some msg) :: post =
        (pre ++ [("warning", some msg)]) ++ post by simp,
      report_get_log_append, report_get_log_append, report_get_log_append, hsingle]
    simp [report_entry_text]
  · rw [add_markdown, report_get_log_append, hsingle]
    simp [report_entry_text]
  · rw [hsingle]; simp [report_entry_text]
  · rw [hsingle]; simp [report_entry_text]
  · rw [hsingle]; simp [report_entry_text, String.append_assoc]
  · rw [hsingle]; simp [report_entry_text, String.append_assoc]
  · rw [hsingle]; simp [report_entry_text]

/-! ### Theorems for claim C7 -/

/-- C7: the row-count probe tries the strict parse first and the tolerant
parse on its failure; it returns 0 for empty or header-only input (at
most one non-empty line), the parsed data-row count — positive for files
with data rows — when a parse succeeds, and a negative value (the
sentinel −1) exactly when the input has more than one non-empty line but
both parses fail. -/
theorem get_row_count_spec (lines : List String)
    (strictParse tolerantParse : Option Nat) :
    ((lines.filter (fun l => !(isBlankStr l))).length ≤ 1 →
      get_row_count lines strictParse tolerantParse = 0)
    ∧ (∀ n, 1 < (lines.filter (fun l => !(isBlankStr l))).length →
      strictParse = some n →
      get_row_count lines strictParse tolerantParse = (n : Int))
    ∧ (∀ n, 1 < (lines.filter (fun l => !(isBlankStr l))).length →
      strictParse = none → tolerantParse = some n →
      get_row_count lines strictParse tolerantParse = (n : Int))
    ∧ (get_row_count lines strictParse tolerantParse < 0 ↔
      (1 < (lines.filter (fun l => !(isBlankStr l))).length ∧
        strictParse = none ∧ tolerantParse = none))
    ∧ (get_row_count lines strictParse tolerantParse < 0 →
      get_row_count lines strictParse tolerantParse = -1) := by
  refine ⟨?_, ?_, ?_, ?_, ?_⟩
  · intro h
    simp [get_row_count, h, if_pos]
  · intro n h hs
    rw [get_row_count.eq_def]
    simp [Nat.not_le_of_lt h, hs, Nat.lt_iff_add_one_le] at *
  · intro n h hs ht
    rw [get_row_count.eq_def]
    simp [Nat.not_le_of_lt h, hs, ht] at *
  · rw [get_row_count.eq_def]
    by_cases h : (lines.filter (fun l => !(isBlankStr l))).length ≤ 1
    · simp [h]
    · cases hs : strictParse <;> cases ht : tolerantParse <;>
        simp [h, hs, ht] <;> omega
  · rw [get_row_count.eq_def]
    by_cases h : (lines.filter (fun l => !(isBlankStr l))).length ≤ 1
    · simp [h]
    · cases hs : strictParse <;> cases ht : tolerantParse <;>
        simp [h, hs, ht]

theorem get_row_count_spec_witness :
    get_row_count ["a,b"] none none = 0
    ∧ get_row_count ["a,b", "1,2", "3,4"] (some 2) none = 2
    ∧ get_row_count ["a,b", "1;2"] none (some 1) = 1
    ∧ get_row_count ["a,b", "oops"] none none = -1 :=
  ⟨(get_row_count_spec ["a,b"] none none).1 (by decide),
   (get_row_count_spec ["a,b", "1,2", "3,4"] (some 2) none).2.1 2 (by decide) rfl,
   (get_row_count_spec ["a,b", "1;2"] none (some 1)).2.2.1 1 (by decide) rfl rfl,
   (get_row_count_spec ["a,b", "oops"] none none).2.2.2.2
     (by decide)⟩

/-! ### Theorems for claim C2 -/

/-- C2 counterexample: for an Enum field with declared values
["Male", "Female"] and fill-values ["Unknown"], the sentinel "NA" is
NOT accepted as valid — validate_table only accepts Enum members of
(declared values ∪ fill-values) and never adds the sentinel, so the
claim that the sentinel is always accepted for Enum fields is false. -/
theorem enum_sentinel_not_always_valid_counterexample :
    enumValid ["Male", "Female"] ["Unknown"] NULL_SENTINEL = false
    ∧ integerValid ["Unknown"] (fun _ => none) NULL_SENTINEL = true
    ∧ floatValid ["Unknown"] (fun _ => none) NULL_SENTINEL = true := by
  refine ⟨by decide, ?_, ?_⟩
  · simp [integerValid, NULL_SENTINEL]
  · simp [floatValid, NULL_SENTINEL]

/-- C2 (amended): for every Regex-typed field, a non-sentinel cell is
valid iff it full-string-matches the field's pattern or is one of the
field's fill-values, and the sentinel is valid only if the sentinel is
itself declared among that field's fill-values; for Integer and Float
fields the sentinel is always accepted as valid; for Enum fields the
sentinel is accepted iff it is a member of the declared values or the
fill-values. -/
theorem sentinel_validity_by_datatype (fillnullValues validValues : List String)
    (matcher : Option (String → Bool)) (toNum : String → Option Rat)
    (cell : String) :
    (cell ≠ NULL_SENTINEL →
      (regexValid fillnullValues matcher cell = true ↔
        (cell ∈ fillnullValues ∨ ∃ f, matcher = some f ∧ f cell = true)))
    ∧ (regexValid fillnullValues matcher NULL_SENTINEL = true ↔
        NULL_SENTINEL ∈ fillnullValues)
    ∧ integerValid fillnullValues toNum NULL_SENTINEL = true
    ∧ floatValid fillnullValues toNum NULL_SENTINEL = true
    ∧ (enumValid validValues fillnullValues NULL_SENTINEL = true ↔
        NULL_SENTINEL ∈ validValues ++ fillnullValues) := by
  refine ⟨?_, ?_, ?_, ?_, ?_⟩
  · intro hcell
    by_cases hf : cell ∈ fillnullValues
    · simp [regexValid, hf]
    · cases hm : matcher with
      | none => simp [regexValid, hf, hcell, hm]
      | some f =>
        simp [regexValid, hf, hcell, hm]
  · by_cases hf : NULL_SENTINEL ∈ fillnullValues <;> simp [regexValid, hf]
  · simp [integerValid]
  · simp [floatValid]
  · simp [enumValid]

theorem sentinel_validity_by_datatype_witness :
    (regexValid ["Unknown"] (some (fun s => s = "x")) "x" = true ↔
      ("x" ∈ ["Unknown"] ∨
        ∃ f, (some (fun s => s = "x") : Option (String → Bool)) = some f ∧
          f "x" = true)) :=
  (sentinel_validity_by_datatype ["Unknown"] [] (some (fun s => s = "x"))
    (fun _ => none) "x").1 (by decide)

/-! ### Theorems for claim C3 -/

/-- C3 counterexample: the malformed list literal "[abc" — on which
json.loads raises, modelled by the jsonLoads argument returning none —
parses to the singleton list containing the raw text, not to the empty
(universal) list. -/
theorem parse_json_list_cell_malformed_counterexample :
    parse_json_list_cell (fun _ => none) (some "[abc") = ["[abc"]
    ∧ parse_json_list_cell (fun _ => none) (some "[abc") ≠ [] := by
  have h1 : parse_json_list_cell (fun _ => none) (some "[abc") = ["[abc"] := rfl
  exact ⟨h1, by rw [h1]; simp⟩

/-- C3 (amended): applicability parsing never raises (the embedding is a
total function for every behaviour of json.loads): blank or null-like
cells parse to the empty list, which means universal applicability for
that axis; but a malformed list literal starting with "[" parses to the
one-element list holding the raw (stripped) text — not to the empty
list — and other non-empty non-list text likewise parses to a singleton. -/
theorem parse_json_list_cell_spec (jsonLoads : String → Option JsonOutcome)
    (cellValue : Option String) (sv : String) :
    (cellValue = none → parse_json_list_cell jsonLoads cellValue = [])
    ∧ (∀ raw, cellValue = some raw → pyStrip raw = "" →
        parse_json_list_cell jsonLoads cellValue = [])
    ∧ (∀ raw, cellValue = some raw →
        (pyLower (pyStrip raw) = "nan" ∨ pyLower (pyStrip raw) = "none") →
        parse_json_list_cell jsonLoads cellValue = [])
    ∧ (∀ raw, cellValue = some raw → pyStrip raw ≠ "" →
        ¬(pyLower (pyStrip raw) = "nan" ∨ pyLower (pyStrip raw) = "none") →
        pyStartsWith (pyStrip raw) "[" = true →
        jsonLoads (pyStrip raw) = none →
        parse_json_list_cell jsonLoads cellValue = [pyStrip raw])
    ∧ (∀ raw, cellValue = some raw → pyStrip raw ≠ "" →
        ¬(pyLower (pyStrip raw) = "nan" ∨ pyLower (pyStrip raw) = "none") →
        pyStartsWith (pyStrip raw) "[" = false →
        parse_json_list_cell jsonLoads cellValue = [pyStrip raw])
    ∧ (parse_json_list_cell jsonLoads cellValue = [] →
        axis_allows jsonLoads cellValue (some sv) = true)
    ∧ axis_allows jsonLoads cellValue none = true := by
  refine ⟨?_, ?_, ?_, ?_, ?_, ?_, rfl⟩
  · intro h; subst h; rfl
  · intro raw hr hblank
    subst hr
    simp [parse_json_list_cell, hblank]
  · intro raw hr hlow
    subst hr
    by_cases hblank : pyStrip raw = ""
    · simp [parse_json_list_cell, hblank]
    · simp only [parse_json_list_cell]
      rw [if_neg hblank, if_pos hlow]
  · intro raw hr hblank hlow hstart hjson
    subst hr
    simp only [parse_json_list_cell]
    rw [if_neg hblank, if_neg hlow, if_pos hstart, hjson]
  · intro raw hr hblank hlow hstart
    subst hr
    simp only [parse_json_list_cell]
    rw [if_neg hblank, if_neg hlow, if_neg (by simp [hstart])]
  · intro hempty
    simp [axis_allows, hempty]

theorem parse_json_list_cell_spec_witness :
    parse_json_list_cell (fun _ => none) (some "  nan ") = []
    ∧ parse_json_list_cell (fun _ => none) (some "Brain") = ["Brain"]
    ∧ axis_allows (fun _ => none) (some "  ") (some "Human") = true :=
  ⟨(parse_json_list_cell_spec (fun _ => none) (some "  nan ") "x").2.2.1
      "  nan " rfl (by decide),
   (parse_json_list_cell_spec (fun _ => none) (some "Brain") "x").2.2.2.2.1
      "Brain" rfl (by decide) (by decide) (by decide),
   (parse_json_list_cell_spec (fun _ => none) (some "  ") "Human").2.2.2.2.2.1
      (by decide)⟩

/-! ### Theorems for claim C5 -/

lemma mask_fill_preserves (series : List (Option String)) (v : String) (i : Nat)
    (h : compute_missing_mask_cell (series.getD i none) = false) :
    (mask_fill series v).getD i none = series.getD i none := by
  simp only [mask_fill, List.getD_eq_getElem?_getD, List.getElem?_map]
  cases hc : series[i]? with
  | none => simp
  | some c =>
    have hcell : series.getD i none = c := by
      simp [List.getD_eq_getElem?_getD, hc]
    rw [hcell] at h
    simp [h]

lemma apply_fill_choice_shape (parseFillNull : String → List String)
    (series : List (Option String)) (userChoice : Option String)
    (fillNullRaw : String) (overrideValue : Option String) :
    apply_fill_choice parseFillNull series userChoice fillNullRaw overrideValue
        = series ∨
    ∃ v, apply_fill_choice parseFillNull series userChoice fillNullRaw
        overrideValue = mask_fill series v := by
  unfold apply_fill_choice apply_fill_after_override
  cases overrideValue with
  | none =>
    cases hres : resolve_fill_value parseFillNull userChoice (pyStrip fillNullRaw) with
    | none => left; simp [hres]
    | some v => right; exact ⟨v, by simp [hres]⟩
  | some ov =>
    by_cases hov : pyStrip ov ≠ ""
    · right; exact ⟨ov, by simp [hov]⟩
    · cases hres : resolve_fill_value parseFillNull userChoice (pyStrip fillNullRaw) with
      | none => left; simp [hov, hres]
      | some v => right; exact ⟨v, by simp [hov, hres]⟩

/-- C5 counterexample: with no override and the user choice "Unknown" —
which is not of the generic form Fill out with "X" but equals one of the
field's parsed FillNull values — apply_fill_choice does NOT leave the
column unchanged: the safety net fills the masked cell with "Unknown".
(For FillNull text "Unknown", ast.literal_eval raises and the source
falls back to the singleton ["Unknown"], modelled by the first
argument.) -/
theorem apply_fill_choice_not_unchanged_counterexample :
    apply_fill_choice (fun t => [t]) [none] (some "Unknown") "Unknown" none
      = [some "Unknown"]
    ∧ apply_fill_choice (fun t => [t]) [none] (some "Unknown") "Unknown" none
      ≠ [none] := by
  have h1 : apply_fill_choice (fun t => [t]) [none] (some "Unknown") "Unknown"
      none = [some "Unknown"] := by decide
  exact ⟨h1, by rw [h1]; simp⟩

/-- C5 (amended): applying a fill resolves in this precedence order: a
non-blank explicit override value is used first; otherwise the literal
extracted from a selected generic option of the exact form
Fill out with "X"; otherwise — a safety net — a non-empty choice that
itself equals one of the field's parsed FillNull values is used directly;
otherwise the column is returned unchanged.  In every case only the
cells flagged by the missing mask are replaced and all other cell values
are left exactly as they were. -/
theorem apply_fill_choice_spec (parseFillNull : String → List String)
    (series : List (Option String)) (userChoice : Option String)
    (fillNullRaw : String) (overrideValue : Option String) :
    (∀ ov, overrideValue = some ov → pyStrip ov ≠ "" →
      apply_fill_choice parseFillNull series userChoice fillNullRaw overrideValue
        = mask_fill series ov)
    ∧ ((overrideValue = none ∨ ∃ ov, overrideValue = some ov ∧ pyStrip ov = "") →
      ∀ v, resolve_fill_value parseFillNull userChoice (pyStrip fillNullRaw) = some v →
      apply_fill_choice parseFillNull series userChoice fillNullRaw overrideValue
        = mask_fill series v)
    ∧ ((overrideValue = none ∨ ∃ ov, overrideValue = some ov ∧ pyStrip ov = "") →
      resolve_fill_value parseFillNull userChoice (pyStrip fillNullRaw) = none →
      apply_fill_choice parseFillNull series userChoice fillNullRaw overrideValue
        = series)
    ∧ (∀ u, userChoice = some u → u ≠ "" →
      (pyStartsWith u "Fill out with \"" && pyEndsWith u "\"") = true →
      resolve_fill_value parseFillNull userChoice (pyStrip fillNullRaw)
        = some (pyDropRight (pyDrop u 15) 1))
    ∧ (∀ u, userChoice = some u → u ≠ "" →
      (pyStartsWith u "Fill out with \"" && pyEndsWith u "\"") = false →
      resolve_fill_value parseFillNull userChoice (pyStrip fillNullRaw)
        = (if u ∈ (if pyStrip fillNullRaw ≠ "" then
              parseFillNull (pyStrip fillNullRaw) else []) then some u else none))
    ∧ (∀ i, compute_missing_mask_cell (series.getD i none) = false →
      (apply_fill_choice parseFillNull series userChoice fillNullRaw
        overrideValue).getD i none = series.getD i none) := by
  refine ⟨?_, ?_, ?_, ?_, ?_, ?_⟩
  · intro ov hov hblank
    subst hov
    simp [apply_fill_choice, hblank]
  · intro hover v hres
    rcases hover with h | ⟨ov, rfl, hov⟩
    · subst h
      simp [apply_fill_choice, apply_fill_after_override, hres]
    · simp [apply_fill_choice, apply_fill_after_override, hov, hres]
  · intro hover hres
    rcases hover with h | ⟨ov, rfl, hov⟩
    · subst h
      simp [apply_fill_choice, apply_fill_after_override, hres]
    · simp [apply_fill_choice, apply_fill_after_override, hov, hres]
  · intro u hu hne hfmt
    subst hu
    simp [resolve_fill_value, hne, hfmt]
  · intro u hu hne hfmt
    subst hu
    simp [resolve_fill_value, hne, hfmt]
  · intro i hmask
    rcases apply_fill_choice_shape parseFillNull series userChoice fillNullRaw
        overrideValue with h | ⟨v, h⟩
    · rw [h]
    · rw [h]
      exact mask_fill_preserves series v i hmask

theorem apply_fill_choice_spec_witness :
    apply_fill_choice (fun t => [t]) [none, some "kept"] none "x" (some "OV")
      = mask_fill [none, some "kept"] "OV"
    ∧ (apply_fill_choice (fun t => [t]) [some "kept"] (some "Unknown")
        "Unknown" none).getD 0 none = some "kept"
    ∧ resolve_fill_value (fun t => [t]) (some "Fill out with \"Unknown\"") "x"
      = some "Unknown" := by
  have h1 := apply_fill_choice_spec (fun t => [t]) [none, some "kept"] none
    "x" (some "OV")
  have h2 := apply_fill_choice_spec (fun t => [t]) [some "kept"]
    (some "Unknown") "Unknown" none
  have h3 := apply_fill_choice_spec (fun t => [t]) []
    (some "Fill out with \"Unknown\"") "x" none
  refine ⟨h1.1 "OV" rfl (by decide), ?_, ?_⟩
  · rw [h2.2.2.2.2.2 0 (by decide)]
    rfl
  · rw [show (pyStrip "x") = "x" from by decide] at h3
    rw [h3.2.2.2.1 "Fill out with \"Unknown\"" rfl (by decide) (by decide)]
    decide

/-! ### Theorems for claim C4 -/

lemma columnHasInvalid_iff (env : PyEnv) (r : FieldRule)
    (cells : List (Option String)) :
    columnHasInvalid env r cells = true ↔
      ∃ c ∈ normalize_null_like_series NULL_SENTINEL cells,
        cellValid env r c = false := by
  simp [columnHasInvalid, List.any_eq_true]

lemma validate_table_lists_lengths (env : PyEnv)
    (table : String → Option (List (Option String)))
    (rules : List FieldRule) :
    (validate_table_lists env table rules).1.length =
      rules.countP (fun r => decide (r.required = "Required")
        && (table r.field).isNone)
    ∧ (validate_table_lists env table rules).2.1.length =
      rules.countP (fun r => !(decide (r.required = "Required"))
        && (table r.field).isNone)
    ∧ (validate_table_lists env table rules).2.2.1.length =
      rules.countP (fun r => decide (r.required = "Required")
        && (table r.field).elim false (fun cells =>
          decide (∃ c ∈ normalize_null_like_series NULL_SENTINEL cells,
            cellValid env r c = false)))
    ∧ (validate_table_lists env table rules).2.2.2.length =
      rules.countP (fun r => !(decide (r.required = "Required"))
        && (table r.field).elim false (fun cells =>
          decide (∃ c ∈ normalize_null_like_series NULL_SENTINEL cells,
            cellValid env r c = false))) := by
  induction rules with
  | nil => exact ⟨rfl, rfl, rfl, rfl⟩
  | cons r rs ih =>
    obtain ⟨ih1, ih2, ih3, ih4⟩ := ih
    cases htf : table r.field with
    | none =>
      by_cases hreq : r.required = "Required" <;>
        simp [validate_table_lists, htf, hreq, List.countP_cons, ih1, ih2, ih3, ih4]
    | some cells =>
      by_cases hinv : columnHasInvalid env r cells
      · have hex : (∃ c ∈ normalize_null_like_series NULL_SENTINEL cells,
            cellValid env r c = false) := (columnHasInvalid_iff env r cells).mp hinv
        by_cases hreq : r.required = "Required" <;>
          simp [validate_table_lists, htf, hreq, hinv, List.countP_cons,
            ih1, ih2, ih3, ih4, hex]
      · have hex : ¬(∃ c ∈ normalize_null_like_series NULL_SENTINEL cells,
            cellValid env r c = false) := fun h =>
          hinv ((columnHasInvalid_iff env r cells).mpr h)
        by_cases hreq : r.required = "Required" <;>
          simp [validate_table_lists, htf, hreq, hinv, List.countP_cons,
            ih1, ih2, ih3, ih4, hex]

/-- C4: after validating a table, errors_counter equals the number of
missing required columns plus the number of required fields having at
least one invalid value, warnings_counter equals the number of missing
optional columns plus the number of optional fields having at least one
invalid value, and the sanitized file download is enabled iff
errors_counter is exactly 0 — the warning count plays no role in the
gate. -/
theorem validate_table_counts_spec (env : PyEnv)
    (table : String → Option (List (Option String)))
    (rules : List FieldRule) :
    (validate_table_counts env table rules).1 =
      rules.countP (fun r => decide (r.required = "Required")
        && (table r.field).isNone)
      + rules.countP (fun r => decide (r.required = "Required")
        && (table r.field).elim false (fun cells =>
          decide (∃ c ∈ normalize_null_like_series NULL_SENTINEL cells,
            cellValid env r c = false)))
    ∧ (validate_table_counts env table rules).2 =
      rules.countP (fun r => !(decide (r.required = "Required"))
        && (table r.field).isNone)
      + rules.countP (fun r => !(decide (r.required = "Required"))
        && (table r.field).elim false (fun cells =>
          decide (∃ c ∈ normalize_null_like_series NULL_SENTINEL cells,
            cellValid env r c = false)))
    ∧ (∀ errorsCounter warningsCounter : Nat,
        (sanitized_download_enabled errorsCounter = true ↔ errorsCounter = 0)
        ∧ (warningsCounter ≠ 0 →
          sanitized_download_enabled 0 = true)) := by
  obtain ⟨h1, h2, h3, h4⟩ := validate_table_lists_lengths env table rules
  refine ⟨?_, ?_, ?_⟩
  · simp [validate_table_counts, h1, h3]
  · simp [validate_table_counts, h2, h4]
  · intro e w
    constructor
    · simp [sanitized_download_enabled]
    · intro _
      rfl

/-! ### Theorems for claim C6 -/

lemma pickBest_foldl_ge (xs : List (Char × Rat)) (a : Char × Rat) :
    a.2 ≤ (xs.foldl (fun acc y => if y.2 > acc.2 then y else acc) a).2 := by
  induction xs generalizing a with
  | nil => simp
  | cons x xs ih =>
    simp only [List.foldl_cons]
    by_cases h : x.2 > a.2
    · rw [if_pos h]
      exact le_trans (le_of_lt h) (ih x)
    · rw [if_neg h]
      exact ih a

lemma pickBest_foldl_mem (xs : List (Char × Rat)) (a : Char × Rat) :
    xs.foldl (fun acc y => if y.2 > acc.2 then y else acc) a = a ∨
    xs.foldl (fun acc y => if y.2 > acc.2 then y else acc) a ∈ xs := by
  induction xs generalizing a with
  | nil => left; rfl
  | cons x xs ih =>
    simp only [List.foldl_cons]
    by_cases h : x.2 > a.2
    · rw [if_pos h]
      rcases ih x with h1 | h1
      · right; rw [h1]; exact List.mem_cons_self x xs
      · right; exact List.mem_cons_of_mem x h1
    · rw [if_neg h]
      rcases ih a with h1 | h1
      · left; exact h1
      · right; exact List.mem_cons_of_mem x h1

lemma pickBest_foldl_ge_elem (xs : List (Char × Rat)) (a : Char × Rat) :
    ∀ y ∈ xs, y.2 ≤ (xs.foldl (fun acc y => if y.2 > acc.2 then y else acc) a).2 := by
  induction xs generalizing a with
  | nil => intro y hy; cases hy
  | cons x xs ih =>
    intro y hy
    simp only [List.foldl_cons]
    rcases List.mem_cons.mp hy with rfl | hy2
    · by_cases h : y.2 > a.2
      · rw [if_pos h]
        exact pickBest_foldl_ge xs y
      · rw [if_neg h]
        exact le_trans (not_lt.mp h) (pickBest_foldl_ge xs a)
    · by_cases h : x.2 > a.2
      · rw [if_pos h]
        exact ih x y hy2
      · rw [if_neg h]
        exact ih a y hy2

lemma pickBest_spec (x : Char × Rat) (xs : List (Char × Rat)) :
    pickBest (x :: xs) ∈ x :: xs ∧
    ∀ y ∈ x :: xs, y.2 ≤ (pickBest (x :: xs)).2 := by
  constructor
  · rcases pickBest_foldl_mem xs x with h | h
    · rw [pickBest, h]; exact List.mem_cons_self x xs
    · exact List.mem_cons_of_mem x h
  · intro y hy
    rcases List.mem_cons.mp hy with rfl | hy2
    · exact pickBest_foldl_ge xs y
    · exact pickBest_foldl_ge_elem xs x y hy2

lemma pyMedian_nonneg (l : List Nat) : 0 ≤ pyMedian l := by
  rw [pyMedian]
  split_ifs
  · exact le_refl 0
  · exact Nat.cast_nonneg _
  · positivity

lemma scoreDelim_characterization (headerLine : String)
    (candidateLines : List String) (delim : Char) :
    (scoreDelim headerLine candidateLines delim = -1 ↔
      (countChar headerLine delim = 0 ∨ countChar headerLine delim + 1 ≤ 1 ∨
        pyMedian (candidateLines.map (fun l => countChar l delim)) ≤ 0))
    ∧ (¬(countChar headerLine delim = 0 ∨ countChar headerLine delim + 1 ≤ 1 ∨
        pyMedian (candidateLines.map (fun l => countChar l delim)) ≤ 0) →
      scoreDelim headerLine candidateLines delim =
        (((candidateLines.map (fun l => countChar l delim)).filter
            (fun k => ((k : Rat) =
              pyMedian (candidateLines.map (fun l => countChar l delim)) : Bool))).length : Rat)
          / ((candidateLines.map (fun l => countChar l delim)).length : Rat) * 100
          + pyMedian (candidateLines.map (fun l => countChar l delim))) := by
  set counts := candidateLines.map (fun l => countChar l delim) with hcounts
  set med := pyMedian counts with hmed
  by_cases h1 : countChar headerLine delim = 0
  · constructor
    · simp [scoreDelim, h1]
    · intro hq
      exact absurd (Or.inl h1) hq
  · by_cases h2 : counts = []
    · have hmed0 : med ≤ 0 := by
        rw [hmed, h2]
        simp [pyMedian, sortNat]
      constructor
      · simp only [scoreDelim, ← hcounts, h2]
        simp [h1, hmed, hmed0]
      · intro hq
        exact absurd (Or.inr (Or.inr hmed0)) hq
    · by_cases h3 : med ≤ 0
      · constructor
        · simp only [scoreDelim, ← hcounts, ← hmed]
          simp [h1, h2, h3]
        · intro hq
          exact absurd (Or.inr (Or.inr h3)) hq
      · have h4 : ¬(countChar headerLine delim + 1 ≤ 1) := by omega
        have hlen : 0 < counts.length := List.length_pos.mpr h2
        have hscore : scoreDelim headerLine candidateLines delim =
            ((counts.filter (fun k => ((k : Rat) = med : Bool))).length : Rat)
              / (counts.length : Rat) * 100 + med := by
          simp only [scoreDelim, ← hcounts, ← hmed]
          rw [if_neg h1, if_neg h2, if_neg h3, if_neg h4]
        constructor
        · rw [hscore]
          constructor
          · intro heq
            exfalso
            have hcons : (0 : Rat) ≤
                ((counts.filter (fun k => ((k : Rat) = med : Bool))).length : Rat)
                  / (counts.length : Rat) * 100 := by positivity
            have hmedpos : 0 < med := not_le.mp h3
            nlinarith
          · intro hd
            rcases hd with hd | hd | hd
            · exact absurd hd h1
            · exact absurd hd h4
            · exact absurd hd h3
        · intro _
          exact hscore

/-- C6: delimiter detection scores each candidate in
{comma, semicolon, tab, pipe}: a candidate is disqualified with score −1
iff it does not occur in the header line, the header would yield at most
one column, or the median per-line occurrence count over the sampled
non-empty lines is not positive; otherwise its score is 100 times the
fraction of sampled lines whose occurrence count equals the median, plus
the median count.  The winner is a maximum-scoring candidate, and if no
candidate qualifies comma is returned with confidence 0. -/
theorem detect_delimiter_spec (lines : List String) (numLines : Nat)
    (headerLine : String) (restLines : List String)
    (hne : lines.filter (fun l => !(isBlankStr l)) = headerLine :: restLines) :
    (∀ d ∈ SUPPORTED_DELIMITERS,
      (scoreDelim headerLine
          ((headerLine :: restLines).take
            (max 2 (min (headerLine :: restLines).length numLines))) d = -1 ↔
        (countChar headerLine d = 0 ∨ countChar headerLine d + 1 ≤ 1 ∨
          pyMedian (((headerLine :: restLines).take
            (max 2 (min (headerLine :: restLines).length numLines))).map
              (fun l => countChar l d)) ≤ 0))
      ∧ (¬(countChar headerLine d = 0 ∨ countChar headerLine d + 1 ≤ 1 ∨
          pyMedian (((headerLine :: restLines).take
            (max 2 (min (headerLine :: restLines).length numLines))).map
              (fun l => countChar l d)) ≤ 0) →
        scoreDelim headerLine
            ((headerLine :: restLines).take
              (max 2 (min (headerLine :: restLines).length numLines))) d =
          (((((headerLine :: restLines).take
              (max 2 (min (headerLine :: restLines).length numLines))).map
                (fun l => countChar l d)).filter
              (fun k => ((k : Rat) =
                pyMedian (((headerLine :: restLines).take
                  (max 2 (min (headerLine :: restLines).length numLines))).map
                    (fun l => countChar l d)) : Bool))).length : Rat)
            / ((((headerLine :: restLines).take
                (max 2 (min (headerLine :: restLines).length numLines))).map
                  (fun l => countChar l d)).length : Rat) * 100
            + pyMedian (((headerLine :: restLines).take
                (max 2 (min (headerLine :: restLines).length numLines))).map
                  (fun l => countChar l d))))
    ∧ ((∀ d ∈ SUPPORTED_DELIMITERS,
        scoreDelim headerLine
          ((headerLine :: restLines).take
            (max 2 (min (headerLine :: restLines).length numLines))) d < 0) →
      detect_delimiter lines numLines = (',', 0))
    ∧ (¬(∀ d ∈ SUPPORTED_DELIMITERS,
        scoreDelim headerLine
          ((headerLine :: restLines).take
            (max 2 (min (headerLine :: restLines).length numLines))) d < 0) →
      (detect_delimiter lines numLines).1 ∈ SUPPORTED_DELIMITERS
      ∧ ∀ d ∈ SUPPORTED_DELIMITERS,
        scoreDelim headerLine
          ((headerLine :: restLines).take
            (max 2 (min (headerLine :: restLines).length numLines))) d ≤
        scoreDelim headerLine
          ((headerLine :: restLines).take
            (max 2 (min (headerLine :: restLines).length numLines)))
          (detect_delimiter lines numLines).1) := by
  set cand := (headerLine :: restLines).take
    (max 2 (min (headerLine :: restLines).length numLines)) with hcand
  have hdet : detect_delimiter lines numLines =
      (let scored := SUPPORTED_DELIMITERS.map (fun d => (d, scoreDelim headerLine cand d))
       let best := pickBest scored
       if best.2 < 0 then (',', 0) else (best.1, min 100 (max 0 best.2))) := by
    rw [detect_delimiter, hne]
  set scored := SUPPORTED_DELIMITERS.map (fun d => (d, scoreDelim headerLine cand d))
    with hscored
  have hscored_shape : scored = (',', scoreDelim headerLine cand ',') ::
      [(';', scoreDelim headerLine cand ';'),
       ('\t', scoreDelim headerLine cand '\t'),
       ('|', scoreDelim headerLine cand '|')] := by
    simp [hscored, SUPPORTED_DELIMITERS]
  have hpick := pickBest_spec ((',', scoreDelim headerLine cand ','))
    [(';', scoreDelim headerLine cand ';'),
     ('\t', scoreDelim headerLine cand '\t'),
     ('|', scoreDelim headerLine cand '|')]
  rw [← hscored_shape] at hpick
  have hbest_mem : pickBest scored ∈ scored := hpick.1
  have hbest_ge : ∀ y ∈ scored, y.2 ≤ (pickBest scored).2 := hpick.2
  have hbest_eq : ∃ d ∈ SUPPORTED_DELIMITERS,
      pickBest scored = (d, scoreDelim headerLine cand d) := by
    rw [hscored] at hbest_mem
    obtain ⟨d, hd, hde⟩ := List.mem_map.mp hbest_mem
    exact ⟨d, hd, hde.symm⟩
  refine ⟨?_, ?_, ?_⟩
  · intro d _
    exact scoreDelim_characterization headerLine cand d
  · intro hall
    obtain ⟨d0, hd0, hbe⟩ := hbest_eq
    have : (pickBest scored).2 < 0 := by
      rw [hbe]
      exact hall d0 hd0
    rw [hdet]
    simp only [← hscored]
    rw [if_pos this]
  · intro hnall
    push_neg at hnall
    obtain ⟨d1, hd1, hs1⟩ := hnall
    have hge1 : (d1, scoreDelim headerLine cand d1) ∈ scored := by
      rw [hscored]
      exact List.mem_map_of_mem _ hd1
    have hnotneg : ¬((pickBest scored).2 < 0) := by
      have := hbest_ge _ hge1
      simp only at this
      exact fun hc => (not_lt.mpr hs1) (lt_of_le_of_lt this hc)
    obtain ⟨d0, hd0, hbe⟩ := hbest_eq
    have hres : (detect_delimiter lines numLines).1 = (pickBest scored).1 := by
      rw [hdet]
      simp only [← hscored]
      rw [if_neg hnotneg]
    constructor
    · rw [hres, hbe]
      exact hd0
    · intro d hd
      rw [hres, hbe]
      have := hbest_ge (d, scoreDelim headerLine cand d)
        (by rw [hscored]; exact List.mem_map_of_mem _ hd)
      simp only at this
      rw [hbe] at this
      exact this

theorem detect_delimiter_spec_witness :
    detect_delimiter ["abc", "def"] LINES_TO_EVALUATE = (',', 0)
    ∧ (scoreDelim "abc" (["abc", "def"].take
        (max 2 (min (["abc", "def"] : List String).length LINES_TO_EVALUATE))) ',' = -1 ↔
      (countChar "abc" ',' = 0 ∨ countChar "abc" ',' + 1 ≤ 1 ∨
        pyMedian ((["abc", "def"].take
          (max 2 (min (["abc", "def"] : List String).length LINES_TO_EVALUATE))).map
            (fun l => countChar l ',')) ≤ 0)) := by
  have h1 := detect_delimiter_spec ["abc", "def"] LINES_TO_EVALUATE
    "abc" ["def"] (by decide)
  refine ⟨h1.2.1 ?_, (h1.1 ',' (by decide)).1⟩
  intro d hd
  fin_cases hd <;> decide

end CrnMetaValidate
